import Mathlib

/-!
Shallow embedding of `purchase_order_product_recommendation/wizards/purchase_planning.py`.

The wizard `purchase.planning` aggregates stock move lines (received from
suppliers, delivered to customers) per product and materializes one
`purchase.planning.line` row per product.  Dates are modelled as integer day
numbers; datetimes as a day number plus a time-of-day in microseconds; float
quantities as rationals; Python dictionaries keyed by product id as
association lists with Python's insert/update semantics.
-/

namespace PurchasePlanning

/-- A datetime: day number plus time-of-day measured in microseconds. -/
structure Timestamp where
  day : Int
  tod : Nat
deriving DecidableEq, Repr

/-- Lexicographic order on datetimes. -/
def tsLe (a b : Timestamp) : Bool :=
  a.day < b.day || (a.day == b.day && a.tod ≤ b.tod)

/-- `datetime.combine(d, datetime.min.time())`: start of day `d`. -/
def combineMin (d : Int) : Timestamp := ⟨d, 0⟩

/-- `datetime.combine(d, datetime.max.time())`: end of day `d` (23:59:59.999999). -/
def combineMax (d : Int) : Timestamp := ⟨d, 86399999999⟩

/-- A `product.product` record (variant level).  `categ_id`, `active` and
`purchase_ok` are the fields the wizard consults. -/
structure Product where
  id : Nat
  product_tmpl_id : Nat
  active : Bool
  purchase_ok : Bool
  categ_id : Nat
deriving DecidableEq, Repr

/-- A `product.template` record. -/
structure ProductTemplate where
  id : Nat
  active : Bool
  purchase_ok : Bool
deriving DecidableEq, Repr

/-- A `product.supplierinfo` record: `name` is the (commercial) vendor,
`product_tmpl_id` the template, `product_id` an optional variant-level link. -/
structure SupplierInfo where
  name : Nat
  product_tmpl_id : Nat
  product_id : Option Nat
deriving DecidableEq, Repr

/-- A `stock.move.line` record, with the fields referenced by the wizard's
move-line domain: the location usages, the state, the done quantity and the
warehouse of the originating picking (absent when there is no picking). -/
structure MoveLine where
  product_id : Nat
  date : Timestamp
  location_usage : String
  location_dest_usage : String
  state : String
  qty_done : Rat
  warehouse_id : Option Nat
deriving DecidableEq, Repr

/-- The seller record returned by `product._select_seller`: unit price, its
currency and the vendor partner (`name`). -/
structure Seller where
  price : Rat
  currency_id : Option Nat
  name : Nat
deriving DecidableEq, Repr

/-- The external data store and resolvers the wizard delegates to:
supplier infos, templates, product variants, the move-line ledger, the
`_select_seller` resolver (evaluated at today, quantity 1, purchase UoM) and
the stock-level fields `qty_available` / `virtual_available`, optionally
scoped to a warehouse via context. -/
structure Env where
  commercial_partner_id : Nat → Nat
  supplierinfos : List SupplierInfo
  templates : List ProductTemplate
  products : List Product
  move_lines : List MoveLine
  select_seller : Nat → Option Nat → Option Seller
  qty_available : Nat → Option Nat → Rat
  virtual_available : Nat → Option Nat → Rat

/-- The `purchase.planning` wizard record. -/
structure Wizard where
  partner_id : Option Nat
  date_begin : Int
  date_end : Int
  show_all_partner_products : Bool
  show_all_products : Bool
  product_category_ids : List Nat
  warehouse_ids : List Nat
deriving DecidableEq, Repr

/-- `onchange_show_all_products`: enabling `show_all_products` clears
`show_all_partner_products` and the vendor. -/
def onchange_show_all_products (w : Wizard) : Wizard :=
  if w.show_all_products then
    { w with show_all_partner_products := false, partner_id := none }
  else w

/-- `_get_total_days`: `(date_end + timedelta(days=1) - date_begin).days`. -/
def _get_total_days (w : Wizard) : Int :=
  w.date_end + 1 - w.date_begin

/-- `template.product_variant_ids`: the (active) variants of a template. -/
def product_variant_ids (env : Env) (t : ProductTemplate) : List Product :=
  env.products.filter (fun p => p.product_tmpl_id == t.id && p.active)

/-- `_get_supplier_products`: supplier infos of the vendor's commercial
entity; their templates and variant-level products, filtered to active and
purchasable, templates expanded to variants. -/
def _get_supplier_products (env : Env) (w : Wizard) : List Product :=
  let partner := w.partner_id.map env.commercial_partner_id
  let supplierinfos := env.supplierinfos.filter (fun s => some s.name == partner)
  let product_tmpls :=
    (env.templates.filter
        (fun t => (supplierinfos.map (·.product_tmpl_id)).contains t.id)).filter
      (fun t => t.active && t.purchase_ok)
  let products :=
    (env.products.filter
        (fun p => (supplierinfos.filterMap (·.product_id)).contains p.id)).filter
      (fun p => p.active && p.purchase_ok)
  products ++ product_tmpls.flatMap (product_variant_ids env)

/-- `_get_products`: the supplier products, filtered by category when the
category filter is set. -/
def _get_products (env : Env) (w : Wizard) : List Product :=
  let products := _get_supplier_products env w
  if !w.product_category_ids.isEmpty then
    products.filter (fun p => w.product_category_ids.contains p.categ_id)
  else products

/-- `_get_move_line_domain` as a predicate on move lines: product among the
given ids, datetime between start of `date_begin` and end of `date_end`,
location usages equal to `src`/`dst`, state done, and — when the warehouse
filter is set — the picking's warehouse among the selected ones. -/
def move_line_matches (w : Wizard) (product_ids : List Nat) (src dst : String)
    (l : MoveLine) : Bool :=
  product_ids.contains l.product_id &&
  tsLe (combineMin w.date_begin) l.date &&
  tsLe l.date (combineMax w.date_end) &&
  l.location_usage == src &&
  l.location_dest_usage == dst &&
  l.state == "done" &&
  (w.warehouse_ids.isEmpty ||
    (match l.warehouse_id with
     | some wh => w.warehouse_ids.contains wh
     | none => false))

/-- One `read_group` result: the product, the record count of its group and
the summed `qty_done`. -/
structure GroupResult where
  product_id : Nat
  product_id_count : Nat
  qty_done : Rat
deriving DecidableEq, Repr

/-- `read_group(domain, ["product_id", "qty_done"], ["product_id"])` over a
list of matching move lines: one group per distinct product, with the record
count and the summed `qty_done`. -/
def read_group_by_product (lines : List MoveLine) : List GroupResult :=
  ((lines.map (·.product_id)).dedup).map (fun pid =>
    { product_id := pid,
      product_id_count := (lines.filter (fun l => l.product_id == pid)).length,
      qty_done := ((lines.filter (fun l => l.product_id == pid)).map (·.qty_done)).sum })

/-- The descending key order used by the manual
`sorted(key=(product_id_count, qty_done), reverse=True)`. -/
def groupKeyGe (a b : GroupResult) : Prop :=
  b.product_id_count < a.product_id_count ∨
    (b.product_id_count = a.product_id_count ∧ b.qty_done ≤ a.qty_done)

instance : DecidableRel groupKeyGe := fun a b => by
  unfold groupKeyGe; infer_instance

instance : IsTotal GroupResult groupKeyGe := by
  constructor
  intro a b
  unfold groupKeyGe
  rcases Nat.lt_trichotomy a.product_id_count b.product_id_count with h | h | h
  · exact Or.inr (Or.inl h)
  · rcases le_total a.qty_done b.qty_done with hq | hq
    · exact Or.inr (Or.inr ⟨h, hq⟩)
    · exact Or.inl (Or.inr ⟨h.symm, hq⟩)
  · exact Or.inl (Or.inl h)

instance : IsTrans GroupResult groupKeyGe := by
  constructor
  intro a b c hab hbc
  unfold groupKeyGe at *
  rcases hab with h1 | ⟨h1, h1q⟩
  · rcases hbc with h2 | ⟨h2, _⟩
    · exact Or.inl (h2.trans h1)
    · exact Or.inl (lt_of_le_of_lt (le_of_eq h2) h1)
  · rcases hbc with h2 | ⟨h2, h2q⟩
    · exact Or.inl (lt_of_lt_of_le h2 (le_of_eq h1))
    · exact Or.inr ⟨h2.trans h1, h2q.trans h1q⟩

/-- The manual stable descending sort of the grouped results. -/
def sort_desc (l : List GroupResult) : List GroupResult :=
  List.insertionSort groupKeyGe l

/-- A merged dictionary entry: the Python dicts built by `_find_move_line`
and mutated by `action_show_results`, with optional keys. -/
structure Entry where
  id : Option Nat := none
  product_id : Nat
  product_id_count : Option Nat := none
  qty_done : Option Rat := none
  qty_received : Option Rat := none
  times_received : Option Nat := none
  qty_delivered : Option Rat := none
  times_delivered : Option Nat := none
deriving DecidableEq, Repr

/-- A Python dict keyed by product id, as an insertion-ordered association
list. -/
abbrev EntryDict := List (Nat × Entry)

/-- The key list of a dict. -/
def keys (d : EntryDict) : List Nat := d.map (·.1)

/-- Python `k in d.keys()`. -/
def hasKey (d : EntryDict) (k : Nat) : Bool := (keys d).contains k

/-- Python `d.get(k)`. -/
def getEntry (d : EntryDict) (k : Nat) : Option Entry :=
  (d.find? (fun kv => kv.1 == k)).map (·.2)

/-- Python `d[k] = v` / `d.update({k: v})`: replace in place or append. -/
def dictInsert (d : EntryDict) (k : Nat) (v : Entry) : EntryDict :=
  if hasKey d k then d.map (fun kv => if kv.1 == k then (k, v) else kv)
  else d ++ [(k, v)]

/-- In-place mutation of the entry stored at key `k`. -/
def updateEntry (d : EntryDict) (k : Nat) (f : Entry → Entry) : EntryDict :=
  d.map (fun kv => if kv.1 == k then (kv.1, f kv.2) else kv)

/-- `_get_all_products_domain` as a predicate: purchasable (and implicitly
active, by the default record filter), optionally category-filtered. -/
def all_products_matches (w : Wizard) (p : Product) : Bool :=
  p.active && p.purchase_ok &&
    (w.product_category_ids.isEmpty || w.product_category_ids.contains p.categ_id)

/-- The `product.product` search over `_get_all_products_domain`. -/
def search_all_products (env : Env) (w : Wizard) : List Product :=
  env.products.filter (all_products_matches w)

/-- `_find_move_line(src, dst)`: group the matching move lines by product,
sort the groups descending by (count, qty), turn them into a dict keyed by
product id, then — for `show_all_products` — extend the product set with all
purchasable products and — for either show-all flag — add a bare
`{"product_id": product}` entry for every product without a key. -/
def _find_move_line (env : Env) (w : Wizard) (src dst : String) : EntryDict :=
  let products := _get_products env w
  let domain_lines :=
    env.move_lines.filter (move_line_matches w (products.map (·.id)) src dst)
  let found_lines := read_group_by_product domain_lines
  let found_lines := sort_desc found_lines
  let entries := found_lines.map (fun g =>
    ({ id := some g.product_id, product_id := g.product_id,
       product_id_count := some g.product_id_count,
       qty_done := some g.qty_done } : Entry))
  let base := entries.foldl (fun d e => dictInsert d e.product_id e) []
  let products :=
    if w.show_all_products then products ++ search_all_products env w else products
  if w.show_all_partner_products || w.show_all_products then
    (products.filter (fun p => !(hasKey base p.id))).foldl
      (fun d p => dictInsert d p.id { product_id := p.id }) base
  else base

/-- The same pipeline with the manual descending sort omitted; used to state
that the intermediate sort does not affect the final report. -/
def find_move_line_nosort (env : Env) (w : Wizard) (src dst : String) : EntryDict :=
  let products := _get_products env w
  let domain_lines :=
    env.move_lines.filter (move_line_matches w (products.map (·.id)) src dst)
  let found_lines := read_group_by_product domain_lines
  let entries := found_lines.map (fun g =>
    ({ id := some g.product_id, product_id := g.product_id,
       product_id_count := some g.product_id_count,
       qty_done := some g.qty_done } : Entry))
  let base := entries.foldl (fun d e => dictInsert d e.product_id e) []
  let products :=
    if w.show_all_products then products ++ search_all_products env w else products
  if w.show_all_partner_products || w.show_all_products then
    (products.filter (fun p => !(hasKey base p.id))).foldl
      (fun d p => dictInsert d p.id { product_id := p.id }) base
  else base

/-- The first loop of `action_show_results`: annotate every received entry
with `qty_received` / `times_received`. -/
def set_received (e : Entry) : Entry :=
  { e with qty_received := some (e.qty_done.getD 0),
           times_received := some (e.product_id_count.getD 0) }

/-- The merge loop body: set `qty_delivered` / `times_delivered` from a
delivered entry. -/
def set_delivered (line e : Entry) : Entry :=
  { e with qty_delivered := some (line.qty_done.getD 0),
           times_delivered := some (line.product_id_count.getD 0) }

/-- One step of the merge loop of `action_show_results`: insert the
delivered entry when its product is absent, then set the delivered fields. -/
def merge_step (d : EntryDict) (kv : Nat × Entry) : EntryDict :=
  let d := if hasKey d kv.1 then d else d ++ [kv]
  updateEntry d kv.1 (set_delivered kv.2)

/-- A `purchase.planning.line` row as created by `_prepare_wizard_line`. -/
structure WizardLine where
  product_id : Nat
  partner_id : Option Nat
  times_delivered : Nat
  times_received : Nat
  units_received : Rat
  units_available : Rat
  units_virtual_available : Rat
  units_avg_delivered : Rat
  units_delivered : Rat
  price_unit : Rat
  currency_id : Option Nat
deriving DecidableEq, Repr

/-- `_prepare_wizard_line`: build one report row from a merged entry, with
stock levels summed per selected warehouse (or unscoped), the seller price,
currency and vendor resolved through `_select_seller` (empty seller yields
zero price and absent currency/vendor), and the average daily delivered
quantity divided by `_get_total_days`. -/
def _prepare_wizard_line (env : Env) (w : Wizard) (vals : Entry) : WizardLine :=
  let product_id := vals.product_id
  let units_available :=
    if !w.warehouse_ids.isEmpty then
      (w.warehouse_ids.map (fun wh => env.qty_available product_id (some wh))).sum
    else env.qty_available product_id none
  let units_virtual_available :=
    if !w.warehouse_ids.isEmpty then
      (w.warehouse_ids.map (fun wh => env.virtual_available product_id (some wh))).sum
    else env.virtual_available product_id none
  let price_unit := ((env.select_seller product_id w.partner_id).map (·.price)).getD 0
  let currency_id := (env.select_seller product_id w.partner_id).bind (·.currency_id)
  let vendor_id := (env.select_seller product_id w.partner_id).map (·.name)
  { product_id := product_id,
    partner_id := vendor_id,
    times_delivered := vals.times_delivered.getD 0,
    times_received := vals.times_received.getD 0,
    units_received := vals.qty_received.getD 0,
    units_available := units_available,
    units_virtual_available := units_virtual_available,
    units_avg_delivered := (vals.qty_delivered.getD 0) / ((_get_total_days w : Int) : Rat),
    units_delivered := vals.qty_delivered.getD 0,
    price_unit := price_unit,
    currency_id := currency_id }

/-- The merged dictionary built by `action_show_results`: received entries
annotated, then the delivered dict folded in. -/
def merged_dict (env : Env) (w : Wizard) : EntryDict :=
  let found_dict := _find_move_line env w "supplier" "internal"
  let found_dict := found_dict.map (fun kv => (kv.1, set_received kv.2))
  let found_delivered_dict := _find_move_line env w "internal" "customer"
  found_delivered_dict.foldl merge_step found_dict

/-- `merged_dict` with both aggregation pipelines unsorted. -/
def merged_dict_nosort (env : Env) (w : Wizard) : EntryDict :=
  let found_dict := find_move_line_nosort env w "supplier" "internal"
  let found_dict := found_dict.map (fun kv => (kv.1, set_received kv.2))
  let found_delivered_dict := find_move_line_nosort env w "internal" "customer"
  found_delivered_dict.foldl merge_step found_dict

/-- `action_show_results`: delete every existing `purchase.planning.line`
row, then create one row per merged entry. -/
def action_show_results (env : Env) (w : Wizard) (_prior : List WizardLine) :
    List WizardLine :=
  let table : List WizardLine := []
  (merged_dict env w).foldl
    (fun tbl kv => tbl ++ [_prepare_wizard_line env w kv.2]) table

/-- `action_show_results` with the intermediate sort omitted. -/
def action_show_results_nosort (env : Env) (w : Wizard) (_prior : List WizardLine) :
    List WizardLine :=
  let table : List WizardLine := []
  (merged_dict_nosort env w).foldl
    (fun tbl kv => tbl ++ [_prepare_wizard_line env w kv.2]) table

/-- The read-time order of `purchase.planning.line` (`_order = "product_id"`). -/
def lineOrder (a b : WizardLine) : Prop := a.product_id ≤ b.product_id

instance : DecidableRel lineOrder := fun a b => by
  unfold lineOrder; infer_instance

instance : IsTotal WizardLine lineOrder :=
  ⟨fun a b => Nat.le_total a.product_id b.product_id⟩

instance : IsTrans WizardLine lineOrder :=
  ⟨fun _ _ _ hab hbc => Nat.le_trans hab hbc⟩

/-- Reading the persisted report rows: ordered by product id. -/
def read_planning_lines (tbl : List WizardLine) : List WizardLine :=
  List.insertionSort lineOrder tbl

/-- The move lines matching the domain of `_find_move_line`. -/
def matched_lines (env : Env) (w : Wizard) (src dst : String) : List MoveLine :=
  env.move_lines.filter (move_line_matches w ((_get_products env w).map (·.id)) src dst)

/-- The products guaranteed a dict entry by the trailing loop of
`_find_move_line`: the candidate products, extended with every purchasable
product when `show_all_products` is set. -/
def expansion_products (env : Env) (w : Wizard) : List Product :=
  if w.show_all_products then _get_products env w ++ search_all_products env w
  else _get_products env w

/-- The dict entry produced by the grouped query for product `k`. -/
def query_entry (lines : List MoveLine) (k : Nat) : Entry :=
  { id := some k, product_id := k,
    product_id_count := some (lines.filter (fun l => l.product_id == k)).length,
    qty_done := some ((lines.filter (fun l => l.product_id == k)).map (·.qty_done)).sum }

/-- The tail of both aggregation pipelines, abstracted over the grouped
(and possibly sorted) query results. -/
def assemble_dict (env : Env) (w : Wizard) (gs : List GroupResult) : EntryDict :=
  let entries := gs.map (fun g =>
    ({ id := some g.product_id, product_id := g.product_id,
       product_id_count := some g.product_id_count,
       qty_done := some g.qty_done } : Entry))
  let base := entries.foldl (fun d e => dictInsert d e.product_id e) []
  let products := expansion_products env w
  if w.show_all_partner_products || w.show_all_products then
    (products.filter (fun p => !(hasKey base p.id))).foldl
      (fun d p => dictInsert d p.id { product_id := p.id }) base
  else base

theorem find_move_line_eq_assemble (env : Env) (w : Wizard) (src dst : String) :
    _find_move_line env w src dst =
      assemble_dict env w
        (sort_desc (read_group_by_product (matched_lines env w src dst))) := rfl

theorem find_move_line_nosort_eq_assemble (env : Env) (w : Wizard) (src dst : String) :
    find_move_line_nosort env w src dst =
      assemble_dict env w (read_group_by_product (matched_lines env w src dst)) := rfl

/-! ### Dictionary lemmas -/

theorem getEntry_nil (k : Nat) : getEntry [] k = none := rfl

theorem getEntry_cons (kv : Nat × Entry) (d : EntryDict) (k : Nat) :
    getEntry (kv :: d) k = if kv.1 = k then some kv.2 else getEntry d k := by
  by_cases h : kv.1 = k <;> simp [getEntry, List.find?_cons, h]

theorem hasKey_eq_isSome (d : EntryDict) (k : Nat) :
    hasKey d k = (getEntry d k).isSome := by
  induction d with
  | nil => rfl
  | cons kv d ih =>
    simp only [hasKey, keys, List.map_cons, List.contains_cons] at ih ⊢
    by_cases h : kv.1 = k
    · simp [getEntry_cons, h]
    · have hbeq : (k == kv.1) = false := by
        simp only [beq_eq_false_iff_ne, ne_eq]
        exact Ne.symm h
      simp only [hbeq, Bool.false_or, getEntry_cons, if_neg h]
      simpa using ih

theorem mem_keys_iff_isSome (d : EntryDict) (k : Nat) :
    k ∈ keys d ↔ (getEntry d k).isSome = true := by
  rw [← hasKey_eq_isSome]
  simp [hasKey]

theorem getEntry_eq_none_iff (d : EntryDict) (k : Nat) :
    getEntry d k = none ↔ k ∉ keys d := by
  rw [mem_keys_iff_isSome]
  cases h : getEntry d k <;> simp [h]

theorem getEntry_append (d₁ d₂ : EntryDict) (k : Nat) :
    getEntry (d₁ ++ d₂) k =
      if hasKey d₁ k then getEntry d₁ k else getEntry d₂ k := by
  rw [hasKey_eq_isSome]
  unfold getEntry
  rw [List.find?_append]
  cases h : d₁.find? (fun kv => kv.1 == k) <;> simp [h, Option.or]

theorem keys_append (d₁ d₂ : EntryDict) : keys (d₁ ++ d₂) = keys d₁ ++ keys d₂ := by
  simp [keys]

theorem getEntry_updateEntry (d : EntryDict) (k₀ : Nat) (f : Entry → Entry) (k : Nat) :
    getEntry (updateEntry d k₀ f) k =
      if k₀ = k then (getEntry d k).map f else getEntry d k := by
  induction d with
  | nil => simp [updateEntry, getEntry]
  | cons kv d ih =>
    have hcons : updateEntry (kv :: d) k₀ f =
        (if kv.1 == k₀ then (kv.1, f kv.2) else kv) :: updateEntry d k₀ f := rfl
    rw [hcons]
    by_cases h₀ : kv.1 = k₀
    · by_cases h : kv.1 = k
      · subst h₀; subst h
        simp [getEntry_cons]
      · subst h₀
        simp [getEntry_cons, h, ih]
    · by_cases h : kv.1 = k
      · subst h
        have hk0 : ¬ k₀ = kv.1 := fun hk => h₀ hk.symm
        simp [getEntry_cons, h₀, ih, hk0]
      · simp [getEntry_cons, h₀, h, ih]

theorem keys_updateEntry (d : EntryDict) (k : Nat) (f : Entry → Entry) :
    keys (updateEntry d k f) = keys d := by
  induction d with
  | nil => rfl
  | cons kv d ih =>
    by_cases h : kv.1 = k <;> simp [updateEntry, keys, h] at ih ⊢ <;> exact ih

theorem getEntry_mapSnd (d : EntryDict) (g : Entry → Entry) (k : Nat) :
    getEntry (d.map (fun kv => (kv.1, g kv.2))) k = (getEntry d k).map g := by
  induction d with
  | nil => rfl
  | cons kv d ih =>
    by_cases h : kv.1 = k <;> simp [getEntry_cons, h, ih]

theorem keys_mapSnd (d : EntryDict) (g : Entry → Entry) :
    keys (d.map (fun kv => (kv.1, g kv.2))) = keys d := by
  simp [keys]

theorem hasKey_append (d₁ d₂ : EntryDict) (k : Nat) :
    hasKey (d₁ ++ d₂) k = (hasKey d₁ k || hasKey d₂ k) := by
  by_cases h₁ : k ∈ keys d₁ <;> by_cases h₂ : k ∈ keys d₂ <;>
    simp [hasKey, keys, List.mem_append, h₁, h₂] at h₁ h₂ ⊢ <;> simp [h₁, h₂]

theorem hasKey_iff_mem_keys (d : EntryDict) (k : Nat) :
    hasKey d k = true ↔ k ∈ keys d := by
  simp [hasKey]

theorem hasKey_cons (kv : Nat × Entry) (d : EntryDict) (k : Nat) :
    hasKey (kv :: d) k = (kv.1 == k || hasKey d k) := by
  by_cases h : kv.1 = k
  · subst h
    simp [hasKey, keys]
  · have hb₁ : (kv.1 == k) = false := beq_eq_false_iff_ne.mpr h
    have hb₂ : (k == kv.1) = false := beq_eq_false_iff_ne.mpr (Ne.symm h)
    simp [hasKey, keys, hb₁, Ne.symm h]

theorem keys_replaceAll (d : EntryDict) (k : Nat) (v : Entry) :
    keys (d.map (fun kv => if kv.1 == k then (k, v) else kv)) = keys d := by
  induction d with
  | nil => rfl
  | cons kv d ih =>
    have hmap : (kv :: d).map (fun kv => if kv.1 == k then (k, v) else kv)
        = (if kv.1 == k then (k, v) else kv)
          :: d.map (fun kv => if kv.1 == k then (k, v) else kv) := rfl
    rw [hmap]
    by_cases h : kv.1 = k
    · have hb : (kv.1 == k) = true := beq_iff_eq.mpr h
      rw [if_pos hb]
      simp only [keys, List.map_cons] at ih ⊢
      exact by rw [ih, h]
    · have hb : (kv.1 == k) = false := beq_eq_false_iff_ne.mpr h
      rw [if_neg (by simp [hb])]
      simp only [keys, List.map_cons] at ih ⊢
      rw [ih]

theorem getEntry_replaceAll (d : EntryDict) (k : Nat) (v : Entry) (k' : Nat) :
    getEntry (d.map (fun kv => if kv.1 == k then (k, v) else kv)) k' =
      if k = k' then (if hasKey d k then some v else none) else getEntry d k' := by
  induction d with
  | nil => by_cases h : k = k' <;> simp [getEntry, hasKey, keys, h]
  | cons kv d ih =>
    have hmap : (kv :: d).map (fun kv => if kv.1 == k then (k, v) else kv)
        = (if kv.1 == k then (k, v) else kv)
          :: d.map (fun kv => if kv.1 == k then (k, v) else kv) := rfl
    rw [hmap]
    by_cases h₀ : kv.1 = k
    · have hb : (kv.1 == k) = true := beq_iff_eq.mpr h₀
      rw [if_pos hb, getEntry_cons]
      rw [hasKey_cons, hb, Bool.true_or]
      by_cases h : k = k'
      · simp [h]
      · simp only [h, if_neg h, if_false]
        rw [ih, if_neg h, getEntry_cons, if_neg (h₀ ▸ h)]
    · have hb : (kv.1 == k) = false := beq_eq_false_iff_ne.mpr h₀
      rw [if_neg (by simp [hb]), getEntry_cons, hasKey_cons, hb, Bool.false_or]
      by_cases h : kv.1 = k'
      · have hne : ¬ k = k' := fun hc => h₀ (h.trans hc.symm)
        rw [if_pos h, if_neg hne, getEntry_cons, if_pos h]
      · rw [if_neg h, ih, getEntry_cons, if_neg h]

theorem getEntry_dictInsert (d : EntryDict) (k : Nat) (v : Entry) (k' : Nat) :
    getEntry (dictInsert d k v) k' = if k = k' then some v else getEntry d k' := by
  unfold dictInsert
  by_cases hk : hasKey d k
  · simp only [hk, if_true]
    rw [getEntry_replaceAll]
    simp [hk]
  · simp only [hk, Bool.false_eq_true, if_false]
    rw [getEntry_append]
    by_cases h : k = k'
    · subst h
      have h0 : getEntry d k = none := by
        rw [getEntry_eq_none_iff]
        intro hmem
        simp [(hasKey_iff_mem_keys d k).mpr hmem] at hk
      simp [hasKey_eq_isSome, h0, getEntry_cons]
    · by_cases h₂ : hasKey d k'
      · simp [h₂, h]
      · have h0 : getEntry d k' = none := by
          rw [getEntry_eq_none_iff]
          intro hmem
          simp [(hasKey_iff_mem_keys d k').mpr hmem] at h₂
        simp [h₂, getEntry_cons, h, h0, getEntry_nil]

theorem keys_dictInsert_mem (d : EntryDict) (k : Nat) (v : Entry) (k' : Nat) :
    k' ∈ keys (dictInsert d k v) ↔ k' = k ∨ k' ∈ keys d := by
  rw [mem_keys_iff_isSome, getEntry_dictInsert]
  by_cases h : k = k'
  · subst h
    simp
  · rw [if_neg h, ← mem_keys_iff_isSome]
    constructor
    · exact Or.inr
    · rintro (hc | hm)
      · exact absurd hc.symm h
      · exact hm

theorem nodup_keys_dictInsert (d : EntryDict) (k : Nat) (v : Entry)
    (hnd : (keys d).Nodup) : (keys (dictInsert d k v)).Nodup := by
  unfold dictInsert
  by_cases hk : hasKey d k
  · rw [if_pos hk, keys_replaceAll]
    exact hnd
  · rw [if_neg hk, keys_append]
    have hnk : k ∉ keys d := fun hmem => by
      simp [(hasKey_iff_mem_keys d k).mpr hmem] at hk
    refine hnd.append (List.nodup_singleton k) ?_
    intro a ha hb
    simp [keys] at hb
    exact hnk (hb ▸ ha)

theorem foldl_dictInsert_fresh : ∀ (es : List Entry) (d : EntryDict),
    (∀ e ∈ es, hasKey d e.product_id = false) →
    (es.map (·.product_id)).Nodup →
    es.foldl (fun d e => dictInsert d e.product_id e) d
      = d ++ es.map (fun e => (e.product_id, e))
  | [], d, _, _ => by simp
  | e :: es, d, hfresh, hnd => by
    have h0 : hasKey d e.product_id = false := hfresh e (by simp)
    have hins : dictInsert d e.product_id e = d ++ [(e.product_id, e)] := by
      simp [dictInsert, h0]
    rw [List.map_cons] at hnd
    have hnotin : e.product_id ∉ es.map (·.product_id) := (List.nodup_cons.mp hnd).1
    have hnd' : (es.map (·.product_id)).Nodup := (List.nodup_cons.mp hnd).2
    have hfresh' : ∀ x ∈ es, hasKey (d ++ [(e.product_id, e)]) x.product_id = false := by
      intro x hx
      have h1 : hasKey d x.product_id = false := hfresh x (List.mem_cons_of_mem _ hx)
      have h2 : x.product_id ≠ e.product_id := by
        intro hc
        exact hnotin (hc ▸ List.mem_map_of_mem (·.product_id) hx)
      have h3 : hasKey [(e.product_id, e)] x.product_id = false := by
        simp [hasKey, keys, h2]
      rw [hasKey_append, h1, h3]
      rfl
    rw [List.foldl_cons, hins, foldl_dictInsert_fresh es _ hfresh' hnd']
    simp

theorem getEntry_foldl_bare : ∀ (ps : List Product) (d : EntryDict) (k : Nat),
    getEntry (ps.foldl (fun d p => dictInsert d p.id { product_id := p.id }) d) k =
      if ps.any (fun p => p.id == k) then some { product_id := k } else getEntry d k
  | [], d, k => by simp
  | p :: ps, d, k => by
    rw [List.foldl_cons, getEntry_foldl_bare ps _ k]
    by_cases hp : p.id = k
    · by_cases hany : ps.any (fun p => p.id == k) = true
      · simp [hany, hp]
      · simp only [hany, Bool.false_eq_true, if_false, getEntry_dictInsert, hp]
        simp [hp]
    · by_cases hany : ps.any (fun p => p.id == k) = true
      · simp [hany, hp]
      · simp only [hany, Bool.false_eq_true, if_false, getEntry_dictInsert, hp]
        simp [hany, hp]

theorem hasKey_foldl_bare (ps : List Product) (d : EntryDict) (k : Nat) :
    hasKey (ps.foldl (fun d p => dictInsert d p.id { product_id := p.id }) d) k =
      (ps.any (fun p => p.id == k) || hasKey d k) := by
  rw [hasKey_eq_isSome, getEntry_foldl_bare]
  by_cases hany : ps.any (fun p => p.id == k) = true <;>
    simp [hany, hasKey_eq_isSome]

theorem nodup_keys_foldl_bare : ∀ (ps : List Product) (d : EntryDict),
    (keys d).Nodup →
    (keys (ps.foldl (fun d p => dictInsert d p.id { product_id := p.id }) d)).Nodup
  | [], _, hnd => hnd
  | p :: ps, d, hnd => by
    rw [List.foldl_cons]
    exact nodup_keys_foldl_bare ps _ (nodup_keys_dictInsert _ _ _ hnd)

theorem getEntry_merge_step (d : EntryDict) (kv : Nat × Entry) (k : Nat) :
    getEntry (merge_step d kv) k =
      if kv.1 = k then some (set_delivered kv.2 ((getEntry d kv.1).getD kv.2))
      else getEntry d k := by
  unfold merge_step
  by_cases hk : hasKey d kv.1
  · rw [if_pos hk, getEntry_updateEntry]
    by_cases h : kv.1 = k
    · subst h
      rw [hasKey_eq_isSome] at hk
      cases he : getEntry d kv.1 with
      | none => rw [he] at hk; simp at hk
      | some e => simp [he]
    · simp [h]
  · rw [if_neg hk, getEntry_updateEntry]
    have h0 : getEntry d kv.1 = none := by
      rw [getEntry_eq_none_iff]
      intro hmem
      simp [(hasKey_iff_mem_keys d kv.1).mpr hmem] at hk
    by_cases h : kv.1 = k
    · subst h
      rw [if_pos rfl, if_pos rfl, getEntry_append, if_neg hk, h0, getEntry_cons,
        if_pos rfl]
      rfl
    · rw [if_neg h, if_neg h, getEntry_append]
      by_cases h₂ : hasKey d k
      · rw [if_pos h₂]
      · rw [if_neg h₂, getEntry_cons, if_neg h, getEntry_nil]
        have h1 : getEntry d k = none := by
          rw [getEntry_eq_none_iff]
          intro hmem
          simp [(hasKey_iff_mem_keys d k).mpr hmem] at h₂
        rw [h1]

theorem keys_merge_step_mem (d : EntryDict) (kv : Nat × Entry) (k : Nat) :
    k ∈ keys (merge_step d kv) ↔ k ∈ keys d ∨ k = kv.1 := by
  rw [mem_keys_iff_isSome, getEntry_merge_step]
  by_cases h : kv.1 = k
  · simp [h.symm]
  · rw [if_neg h, ← mem_keys_iff_isSome]
    constructor
    · exact Or.inl
    · rintro (hm | hc)
      · exact hm
      · exact absurd hc.symm h

theorem nodup_keys_merge_step (d : EntryDict) (kv : Nat × Entry)
    (hnd : (keys d).Nodup) : (keys (merge_step d kv)).Nodup := by
  unfold merge_step
  rw [keys_updateEntry]
  by_cases hk : hasKey d kv.1
  · rw [if_pos hk]; exact hnd
  · rw [if_neg hk, keys_append]
    have hnk : kv.1 ∉ keys d := fun hmem => by
      simp [(hasKey_iff_mem_keys d kv.1).mpr hmem] at hk
    refine hnd.append (List.nodup_singleton kv.1) ?_
    intro a ha hb
    simp [keys] at hb
    exact hnk (hb ▸ ha)

theorem getEntry_merge_foldl : ∀ (l d : EntryDict) (k : Nat),
    (keys l).Nodup →
    getEntry (l.foldl merge_step d) k =
      match getEntry l k with
      | some e => some (set_delivered e ((getEntry d k).getD e))
      | none => getEntry d k
  | [], d, k, _ => by simp [getEntry_nil]
  | kv :: l, d, k, hnd => by
    rw [keys, List.map_cons] at hnd
    have hnotin : kv.1 ∉ l.map (·.1) := (List.nodup_cons.mp hnd).1
    have hnd' : (keys l).Nodup := (List.nodup_cons.mp hnd).2
    rw [List.foldl_cons, getEntry_merge_foldl l _ k hnd', getEntry_cons]
    by_cases h : kv.1 = k
    · subst h
      have hl : getEntry l kv.1 = none := by
        rw [getEntry_eq_none_iff]
        exact hnotin
      rw [hl, if_pos rfl]
      rw [getEntry_merge_step, if_pos rfl]
    · rw [if_neg h]
      cases he : getEntry l k with
      | none =>
        rw [getEntry_merge_step, if_neg h]
      | some e =>
        rw [getEntry_merge_step, if_neg h]

theorem keys_merge_foldl_mem : ∀ (l d : EntryDict) (k : Nat),
    k ∈ keys (l.foldl merge_step d) ↔ k ∈ keys d ∨ k ∈ keys l
  | [], d, k => by simp [keys]
  | kv :: l, d, k => by
    rw [List.foldl_cons, keys_merge_foldl_mem l _ k, keys_merge_step_mem]
    constructor
    · rintro ((hm | hc) | hl)
      · exact Or.inl hm
      · exact Or.inr (by simp [keys, hc])
      · exact Or.inr (by simp [keys] at hl ⊢; exact Or.inr hl)
    · rintro (hm | hl)
      · exact Or.inl (Or.inl hm)
      · simp [keys] at hl
        rcases hl with hc | hl
        · exact Or.inl (Or.inr hc)
        · exact Or.inr (by simp [keys]; exact hl)

theorem nodup_keys_merge_foldl : ∀ (l d : EntryDict),
    (keys d).Nodup → (keys (l.foldl merge_step d)).Nodup
  | [], _, hnd => hnd
  | kv :: l, d, hnd => by
    rw [List.foldl_cons]
    exact nodup_keys_merge_foldl l _ (nodup_keys_merge_step _ _ hnd)

theorem getEntry_eq_some_iff_mem : ∀ (d : EntryDict), (keys d).Nodup →
    ∀ (k : Nat) (v : Entry), getEntry d k = some v ↔ (k, v) ∈ d
  | [], _, k, v => by simp [getEntry_nil]
  | kv :: d, hnd, k, v => by
    rw [keys, List.map_cons] at hnd
    have hnotin : kv.1 ∉ d.map (·.1) := (List.nodup_cons.mp hnd).1
    have hnd' : (keys d).Nodup := (List.nodup_cons.mp hnd).2
    rw [getEntry_cons, List.mem_cons]
    by_cases h : kv.1 = k
    · subst h
      constructor
      · intro hv
        rw [if_pos rfl] at hv
        refine Or.inl ?_
        cases kv with
        | mk k₀ v₀ =>
          simp at hv ⊢
          exact hv.symm
      · rintro (hv | hm)
        · rw [if_pos rfl]
          exact congrArg some (congrArg Prod.snd hv).symm
        · exact absurd (List.mem_map_of_mem (·.1) hm) (by simpa using hnotin)
    · rw [if_neg h, getEntry_eq_some_iff_mem d hnd' k v]
      constructor
      · exact Or.inr
      · rintro (hv | hm)
        · exact absurd (congrArg Prod.fst hv).symm (by simpa using h)
        · exact hm

theorem perm_of_getEntry_eq (d₁ d₂ : EntryDict)
    (h₁ : (keys d₁).Nodup) (h₂ : (keys d₂).Nodup)
    (h : ∀ k, getEntry d₁ k = getEntry d₂ k) : d₁.Perm d₂ := by
  rw [List.perm_ext_iff_of_nodup (h₁.of_map _) (h₂.of_map _)]
  intro kv
  cases kv with
  | mk k v =>
    rw [← getEntry_eq_some_iff_mem d₁ h₁ k v, ← getEntry_eq_some_iff_mem d₂ h₂ k v, h]

theorem foldl_append_rows (f : Nat × Entry → WizardLine) :
    ∀ (l : EntryDict) (acc : List WizardLine),
      l.foldl (fun tbl kv => tbl ++ [f kv]) acc = acc ++ l.map f
  | [], acc => by simp
  | kv :: l, acc => by
    rw [List.foldl_cons, foldl_append_rows f l (acc ++ [f kv])]
    simp

theorem eq_of_perm_sorted_nodup : ∀ (l₁ l₂ : List WizardLine),
    l₁.Perm l₂ → l₁.Sorted lineOrder → l₂.Sorted lineOrder →
    (l₁.map (·.product_id)).Nodup → l₁ = l₂
  | [], l₂, hp, _, _, _ => (hp.nil_eq).symm ▸ rfl
  | a :: t₁, l₂, hp, hs₁, hs₂, hnd => by
    cases l₂ with
    | nil => exact absurd hp.symm.nil_eq (by simp)
    | cons b t₂ =>
      rw [List.map_cons] at hnd
      have hnotin : a.product_id ∉ t₁.map (·.product_id) := (List.nodup_cons.mp hnd).1
      have hnd' : (t₁.map (·.product_id)).Nodup := (List.nodup_cons.mp hnd).2
      by_cases hab : a = b
      · subst hab
        have hp' := hp.cons_inv
        rw [eq_of_perm_sorted_nodup t₁ t₂ hp' (List.sorted_cons.mp hs₁).2
          (List.sorted_cons.mp hs₂).2 hnd']
      · have ha2 : a ∈ t₂ := by
          have := hp.mem_iff.mp (List.mem_cons_self a t₁)
          rcases List.mem_cons.mp this with hc | hm
          · exact absurd hc hab
          · exact hm
        have hb1 : b ∈ t₁ := by
          have := hp.mem_iff.mpr (List.mem_cons_self b t₂)
          rcases List.mem_cons.mp this with hc | hm
          · exact absurd hc.symm hab
          · exact hm
        have hle₁ : a.product_id ≤ b.product_id :=
          (List.sorted_cons.mp hs₁).1 b hb1
        have hle₂ : b.product_id ≤ a.product_id :=
          (List.sorted_cons.mp hs₂).1 a ha2
        have hpid : a.product_id = b.product_id := Nat.le_antisymm hle₁ hle₂
        exact absurd (hpid ▸ List.mem_map_of_mem (·.product_id) hb1) hnotin

theorem find?_unique {α : Type} (p : α → Bool) (v : α) : ∀ (l : List α),
    (∃ x ∈ l, p x = true) → (∀ x ∈ l, p x = true → x = v) → l.find? p = some v
  | [], hex, _ => by simp at hex
  | a :: l, hex, huniq => by
    by_cases ha : p a = true
    · rw [List.find?_cons_of_pos _ ha, huniq a (by simp) ha]
    · rw [List.find?_cons_of_neg _ (by simp [ha])]
      apply find?_unique p v l
      · rcases hex with ⟨x, hx, hpx⟩
        rcases List.mem_cons.mp hx with hc | hm
        · exact absurd (hc ▸ hpx) ha
        · exact ⟨x, hm, hpx⟩
      · intro x hx hpx
        exact huniq x (List.mem_cons_of_mem _ hx) hpx

theorem read_group_pids (L : List MoveLine) :
    (read_group_by_product L).map (·.product_id) = (L.map (·.product_id)).dedup := by
  unfold read_group_by_product
  rw [List.map_map]
  exact List.map_id'' (fun _ => rfl) _

theorem mem_read_group_pid (L : List MoveLine) (g : GroupResult)
    (hg : g ∈ read_group_by_product L) :
    g.product_id ∈ L.map (·.product_id) ∧
      g = { product_id := g.product_id,
            product_id_count :=
              (L.filter (fun l => l.product_id == g.product_id)).length,
            qty_done :=
              ((L.filter (fun l => l.product_id == g.product_id)).map
                  (·.qty_done)).sum } := by
  unfold read_group_by_product at hg
  rcases List.mem_map.mp hg with ⟨pid, hpid, hmk⟩
  have hp : g.product_id = pid := by rw [← hmk]
  subst hp
  exact ⟨List.mem_dedup.mp hpid, hmk.symm⟩

theorem group_of_mem_pids (L : List MoveLine) (k : Nat)
    (hk : k ∈ L.map (·.product_id)) :
    ({ product_id := k,
       product_id_count := (L.filter (fun l => l.product_id == k)).length,
       qty_done := ((L.filter (fun l => l.product_id == k)).map (·.qty_done)).sum }
        : GroupResult) ∈ read_group_by_product L := by
  unfold read_group_by_product
  exact List.mem_map_of_mem _ (List.mem_dedup.mpr hk)

theorem keys_pair_map (es : List Entry) :
    keys (es.map (fun e => (e.product_id, e))) = es.map (·.product_id) := by
  simp [keys]

theorem getEntry_pair_map (es : List Entry) (k : Nat) :
    getEntry (es.map (fun e => (e.product_id, e))) k
      = es.find? (fun e => e.product_id == k) := by
  unfold getEntry
  rw [List.find?_map, Option.map_map]
  have hcomp : ((fun kv : Nat × Entry => kv.2) ∘ fun e => (e.product_id, e)) = id := rfl
  rw [hcomp, Option.map_id]
  rfl

theorem getEntry_base_of_perm (L : List MoveLine) (gs : List GroupResult)
    (hperm : gs.Perm (read_group_by_product L)) (k : Nat) :
    getEntry ((gs.map (fun g =>
        ({ id := some g.product_id, product_id := g.product_id,
           product_id_count := some g.product_id_count,
           qty_done := some g.qty_done } : Entry))).map (fun e => (e.product_id, e))) k =
      if k ∈ L.map (·.product_id) then some (query_entry L k) else none := by
  rw [getEntry_pair_map]
  by_cases hk : k ∈ L.map (·.product_id)
  · rw [if_pos hk]
    apply find?_unique
    · refine ⟨query_entry L k, ?_, by simp [query_entry]⟩
      exact List.mem_map.mpr ⟨_, hperm.mem_iff.mpr (group_of_mem_pids L k hk), rfl⟩
    · intro e he hpe
      rcases List.mem_map.mp he with ⟨g, hg, rfl⟩
      have hgk : g.product_id = k := by simpa using hpe
      have hg2 := (mem_read_group_pid L g (hperm.mem_iff.mp hg)).2
      cases g with
      | mk gp gc gq =>
        simp only at hgk
        subst hgk
        simp only [GroupResult.mk.injEq] at hg2
        simp [query_entry, hg2.2.1, hg2.2.2]
  · rw [if_neg hk, List.find?_eq_none]
    intro e he
    rcases List.mem_map.mp he with ⟨g, hg, rfl⟩
    have hmem := (mem_read_group_pid L g (hperm.mem_iff.mp hg)).1
    intro hc
    have hgk : g.product_id = k := by simpa using hc
    exact hk (hgk ▸ hmem)

theorem getEntry_assemble (env : Env) (w : Wizard) (L : List MoveLine)
    (gs : List GroupResult) (hperm : gs.Perm (read_group_by_product L)) (k : Nat) :
    getEntry (assemble_dict env w gs) k =
      if k ∈ L.map (·.product_id) then some (query_entry L k)
      else if (w.show_all_partner_products || w.show_all_products)
          && (expansion_products env w).any (fun p => p.id == k) then
        some { product_id := k }
      else none := by
  have hpids : (gs.map (·.product_id)).Perm ((L.map (·.product_id)).dedup) := by
    rw [← read_group_pids]
    exact hperm.map _
  have hnd : (gs.map (·.product_id)).Nodup :=
    (hpids.nodup_iff).mpr (List.nodup_dedup _)
  simp only [assemble_dict]
  set es := gs.map (fun g =>
    ({ id := some g.product_id, product_id := g.product_id,
       product_id_count := some g.product_id_count,
       qty_done := some g.qty_done } : Entry)) with hes
  have hespids : es.map (·.product_id) = gs.map (·.product_id) := by
    rw [hes, List.map_map]
    rfl
  have hesnd : (es.map (·.product_id)).Nodup := hespids ▸ hnd
  have hbase : es.foldl (fun d e => dictInsert d e.product_id e) ([] : EntryDict)
      = es.map (fun e => (e.product_id, e)) := by
    rw [foldl_dictInsert_fresh es [] (fun e _ => rfl) hesnd]
    rfl
  have hbase_get : ∀ k', getEntry (es.map (fun e => (e.product_id, e))) k' =
      if k' ∈ L.map (·.product_id) then some (query_entry L k') else none := by
    intro k'
    rw [hes]
    exact getEntry_base_of_perm L gs hperm k'
  rw [hbase]
  by_cases hflag : (w.show_all_partner_products || w.show_all_products) = true
  · rw [if_pos hflag]
    rw [getEntry_foldl_bare]
    by_cases hk : k ∈ L.map (·.product_id)
    · have hbk : hasKey (es.map (fun e => (e.product_id, e))) k = true := by
        rw [hasKey_eq_isSome, hbase_get k, if_pos hk]
        rfl
      have hps : ((expansion_products env w).filter
          (fun p => !(hasKey (es.map (fun e => (e.product_id, e))) p.id))).any
            (fun p => p.id == k) = false := by
        rw [List.any_eq_false]
        intro p hp
        rcases List.mem_filter.mp hp with ⟨_, hpkey⟩
        intro hpk
        have hpid : p.id = k := by simpa using hpk
        rw [hpid, hbk] at hpkey
        simp at hpkey
      rw [hps]
      simp only [Bool.false_eq_true, if_false]
      rw [hbase_get k, if_pos hk, if_pos hk]
    · have hbk : hasKey (es.map (fun e => (e.product_id, e))) k = false := by
        rw [hasKey_eq_isSome, hbase_get k, if_neg hk]
        rfl
      have hany : ((expansion_products env w).filter
          (fun p => !(hasKey (es.map (fun e => (e.product_id, e))) p.id))).any
            (fun p => p.id == k)
          = (expansion_products env w).any (fun p => p.id == k) := by
        by_cases he : (expansion_products env w).any (fun p => p.id == k) = true
        · rw [he]
          rcases List.any_eq_true.mp he with ⟨p, hp, hpk⟩
          apply List.any_eq_true.mpr
          refine ⟨p, List.mem_filter.mpr ⟨hp, ?_⟩, hpk⟩
          have hpid : p.id = k := by simpa using hpk
          rw [hpid, hbk]
          rfl
        · have he' : (expansion_products env w).any (fun p => p.id == k) = false := by
            cases hv : (expansion_products env w).any (fun p => p.id == k)
            · rfl
            · exact absurd hv he
          rw [he', List.any_eq_false]
          intro p hp
          rcases List.mem_filter.mp hp with ⟨hpm, _⟩
          intro hpk
          rw [List.any_eq_false] at he'
          exact he' p hpm hpk
      rw [hany, hbase_get k, if_neg hk, if_neg hk, hflag, Bool.true_and]
  · rw [if_neg hflag, hbase_get k]
    by_cases hk : k ∈ L.map (·.product_id)
    · rw [if_pos hk, if_pos hk]
    · rw [if_neg hk, if_neg hk]
      have hf : (w.show_all_partner_products || w.show_all_products) = false := by
        cases hv : (w.show_all_partner_products || w.show_all_products)
        · rfl
        · exact absurd hv hflag
      rw [hf, Bool.false_and]
      simp

theorem nodup_keys_assemble (env : Env) (w : Wizard) (L : List MoveLine)
    (gs : List GroupResult) (hperm : gs.Perm (read_group_by_product L)) :
    (keys (assemble_dict env w gs)).Nodup := by
  have hpids : (gs.map (·.product_id)).Perm ((L.map (·.product_id)).dedup) := by
    rw [← read_group_pids]
    exact hperm.map _
  have hnd : (gs.map (·.product_id)).Nodup :=
    (hpids.nodup_iff).mpr (List.nodup_dedup _)
  simp only [assemble_dict]
  set es := gs.map (fun g =>
    ({ id := some g.product_id, product_id := g.product_id,
       product_id_count := some g.product_id_count,
       qty_done := some g.qty_done } : Entry)) with hes
  have hespids : es.map (·.product_id) = gs.map (·.product_id) := by
    rw [hes, List.map_map]
    rfl
  have hesnd : (es.map (·.product_id)).Nodup := hespids ▸ hnd
  have hbase : es.foldl (fun d e => dictInsert d e.product_id e) ([] : EntryDict)
      = es.map (fun e => (e.product_id, e)) := by
    rw [foldl_dictInsert_fresh es [] (fun e _ => rfl) hesnd]
    rfl
  have hbnd : (keys (es.map (fun e => (e.product_id, e)))).Nodup := by
    rw [keys_pair_map]
    exact hesnd
  rw [hbase]
  by_cases hflag : (w.show_all_partner_products || w.show_all_products) = true
  · rw [if_pos hflag]
    exact nodup_keys_foldl_bare _ _ hbnd
  · rw [if_neg hflag]
    exact hbnd

theorem getEntry_find_move_line (env : Env) (w : Wizard) (src dst : String) (k : Nat) :
    getEntry (_find_move_line env w src dst) k =
      if k ∈ (matched_lines env w src dst).map (·.product_id) then
        some (query_entry (matched_lines env w src dst) k)
      else if (w.show_all_partner_products || w.show_all_products)
          && (expansion_products env w).any (fun p => p.id == k) then
        some { product_id := k }
      else none := by
  rw [find_move_line_eq_assemble]
  exact getEntry_assemble env w _ _ (List.perm_insertionSort _ _) k

theorem getEntry_find_move_line_nosort (env : Env) (w : Wizard) (src dst : String)
    (k : Nat) :
    getEntry (find_move_line_nosort env w src dst) k =
      if k ∈ (matched_lines env w src dst).map (·.product_id) then
        some (query_entry (matched_lines env w src dst) k)
      else if (w.show_all_partner_products || w.show_all_products)
          && (expansion_products env w).any (fun p => p.id == k) then
        some { product_id := k }
      else none := by
  rw [find_move_line_nosort_eq_assemble]
  exact getEntry_assemble env w _ _ (List.Perm.refl _) k

theorem nodup_keys_find (env : Env) (w : Wizard) (src dst : String) :
    (keys (_find_move_line env w src dst)).Nodup := by
  rw [find_move_line_eq_assemble]
  exact nodup_keys_assemble env w _ _ (List.perm_insertionSort _ _)

theorem nodup_keys_find_nosort (env : Env) (w : Wizard) (src dst : String) :
    (keys (find_move_line_nosort env w src dst)).Nodup := by
  rw [find_move_line_nosort_eq_assemble]
  exact nodup_keys_assemble env w _ _ (List.Perm.refl _)

theorem getEntry_find_eq_nosort (env : Env) (w : Wizard) (src dst : String) (k : Nat) :
    getEntry (_find_move_line env w src dst) k
      = getEntry (find_move_line_nosort env w src dst) k := by
  rw [getEntry_find_move_line, getEntry_find_move_line_nosort]

theorem set_received_pid (e : Entry) : (set_received e).product_id = e.product_id := rfl

theorem set_delivered_pid (line e : Entry) :
    (set_delivered line e).product_id = e.product_id := rfl

theorem find_entry_pid (env : Env) (w : Wizard) (src dst : String) (k : Nat) (e : Entry)
    (h : getEntry (_find_move_line env w src dst) k = some e) : e.product_id = k := by
  rw [getEntry_find_move_line] at h
  by_cases h1 : k ∈ (matched_lines env w src dst).map (·.product_id)
  · rw [if_pos h1] at h
    injection h with h'
    rw [← h']
    rfl
  · rw [if_neg h1] at h
    by_cases h2 : ((w.show_all_partner_products || w.show_all_products)
        && (expansion_products env w).any (fun p => p.id == k)) = true
    · rw [if_pos h2] at h
      injection h with h'
      rw [← h']
    · rw [if_neg h2] at h
      cases h

theorem getEntry_merged (env : Env) (w : Wizard) (k : Nat) :
    getEntry (merged_dict env w) k =
      match getEntry (_find_move_line env w "internal" "customer") k with
      | some e => some (set_delivered e
          (((getEntry (_find_move_line env w "supplier" "internal") k).map
              set_received).getD e))
      | none =>
          (getEntry (_find_move_line env w "supplier" "internal") k).map set_received := by
  unfold merged_dict
  rw [getEntry_merge_foldl _ _ _ (nodup_keys_find env w "internal" "customer"),
    getEntry_mapSnd]

theorem getEntry_merged_nosort (env : Env) (w : Wizard) (k : Nat) :
    getEntry (merged_dict_nosort env w) k =
      match getEntry (find_move_line_nosort env w "internal" "customer") k with
      | some e => some (set_delivered e
          (((getEntry (find_move_line_nosort env w "supplier" "internal") k).map
              set_received).getD e))
      | none =>
          (getEntry (find_move_line_nosort env w "supplier" "internal") k).map
            set_received := by
  unfold merged_dict_nosort
  rw [getEntry_merge_foldl _ _ _ (nodup_keys_find_nosort env w "internal" "customer"),
    getEntry_mapSnd]

theorem getEntry_merged_eq_nosort (env : Env) (w : Wizard) (k : Nat) :
    getEntry (merged_dict env w) k = getEntry (merged_dict_nosort env w) k := by
  rw [getEntry_merged, getEntry_merged_nosort, getEntry_find_eq_nosort,
    getEntry_find_eq_nosort]

theorem mem_keys_merged (env : Env) (w : Wizard) (k : Nat) :
    k ∈ keys (merged_dict env w) ↔
      k ∈ keys (_find_move_line env w "supplier" "internal") ∨
      k ∈ keys (_find_move_line env w "internal" "customer") := by
  unfold merged_dict
  rw [keys_merge_foldl_mem, keys_mapSnd]

theorem nodup_keys_merged (env : Env) (w : Wizard) :
    (keys (merged_dict env w)).Nodup := by
  unfold merged_dict
  apply nodup_keys_merge_foldl
  rw [keys_mapSnd]
  exact nodup_keys_find env w "supplier" "internal"

theorem nodup_keys_merged_nosort (env : Env) (w : Wizard) :
    (keys (merged_dict_nosort env w)).Nodup := by
  unfold merged_dict_nosort
  apply nodup_keys_merge_foldl
  rw [keys_mapSnd]
  exact nodup_keys_find_nosort env w "supplier" "internal"

theorem merged_entry_pid (env : Env) (w : Wizard) (k : Nat) (e : Entry)
    (h : getEntry (merged_dict env w) k = some e) : e.product_id = k := by
  rw [getEntry_merged] at h
  cases hD : getEntry (_find_move_line env w "internal" "customer") k with
  | some ed =>
    rw [hD] at h
    injection h with h'
    rw [← h', set_delivered_pid]
    cases hR : getEntry (_find_move_line env w "supplier" "internal") k with
    | some er =>
      simp only [Option.map_some', Option.getD_some, set_received_pid]
      exact find_entry_pid env w "supplier" "internal" k er hR
    | none =>
      simp only [Option.map_none', Option.getD_none]
      exact find_entry_pid env w "internal" "customer" k ed hD
  | none =>
    rw [hD] at h
    cases hR : getEntry (_find_move_line env w "supplier" "internal") k with
    | some er =>
      rw [hR] at h
      injection h with h'
      rw [← h', set_received_pid]
      exact find_entry_pid env w "supplier" "internal" k er hR
    | none =>
      rw [hR] at h
      cases h

theorem action_eq_map (env : Env) (w : Wizard) (prior : List WizardLine) :
    action_show_results env w prior
      = (merged_dict env w).map (fun kv => _prepare_wizard_line env w kv.2) := by
  unfold action_show_results
  rw [foldl_append_rows]
  rfl

theorem action_nosort_eq_map (env : Env) (w : Wizard) (prior : List WizardLine) :
    action_show_results_nosort env w prior
      = (merged_dict_nosort env w).map (fun kv => _prepare_wizard_line env w kv.2) := by
  unfold action_show_results_nosort
  rw [foldl_append_rows]
  rfl

theorem action_pids (env : Env) (w : Wizard) (prior : List WizardLine) :
    (action_show_results env w prior).map (·.product_id) = keys (merged_dict env w) := by
  rw [action_eq_map, List.map_map]
  apply List.map_congr_left
  intro kv hkv
  have hget : getEntry (merged_dict env w) kv.1 = some kv.2 :=
    (getEntry_eq_some_iff_mem _ (nodup_keys_merged env w) kv.1 kv.2).mpr hkv
  exact merged_entry_pid env w kv.1 kv.2 hget

theorem find_entry_fields (env : Env) (w : Wizard) (src dst : String) (k : Nat)
    (e : Entry) (h : getEntry (_find_move_line env w src dst) k = some e) :
    e.qty_received = none ∧ e.times_received = none ∧
    e.qty_delivered = none ∧ e.times_delivered = none := by
  rw [getEntry_find_move_line] at h
  by_cases h1 : k ∈ (matched_lines env w src dst).map (·.product_id)
  · rw [if_pos h1] at h
    injection h with h'
    rw [← h']
    exact ⟨rfl, rfl, rfl, rfl⟩
  · rw [if_neg h1] at h
    by_cases h2 : ((w.show_all_partner_products || w.show_all_products)
        && (expansion_products env w).any (fun p => p.id == k)) = true
    · rw [if_pos h2] at h
      injection h with h'
      rw [← h']
      exact ⟨rfl, rfl, rfl, rfl⟩
    · rw [if_neg h2] at h
      cases h

theorem eq_nil_of_getEntry_none (d : EntryDict) (h : ∀ k, getEntry d k = none) :
    d = [] := by
  cases d with
  | nil => rfl
  | cons kv t =>
    have hc := h kv.1
    rw [getEntry_cons, if_pos rfl] at hc
    cases hc

/-- The move-line filter as the spec's contract words it, with the candidate
set taken as the vendor-derived (category-filtered) products; this is the
amended reading of claim C2. -/
def contract_move_line_matches (env : Env) (w : Wizard) (src dst : String)
    (l : MoveLine) : Bool :=
  l.state == "done" &&
  ((_get_products env w).map (·.id)).contains l.product_id &&
  tsLe (combineMin w.date_begin) l.date &&
  tsLe l.date (combineMax w.date_end) &&
  l.location_usage == src &&
  l.location_dest_usage == dst &&
  (w.warehouse_ids.isEmpty ||
    (match l.warehouse_id with
     | some wh => w.warehouse_ids.contains wh
     | none => false))

/-- The move-line filter exactly as claim C2 states it: the candidate set
includes, when `show_all_products` is set, every purchasable
(category-filtered) product. -/
def spec_move_line_matches (env : Env) (w : Wizard) (src dst : String)
    (l : MoveLine) : Bool :=
  l.state == "done" &&
  ((expansion_products env w).map (·.id)).contains l.product_id &&
  tsLe (combineMin w.date_begin) l.date &&
  tsLe l.date (combineMax w.date_end) &&
  l.location_usage == src &&
  l.location_dest_usage == dst &&
  (w.warehouse_ids.isEmpty ||
    (match l.warehouse_id with
     | some wh => w.warehouse_ids.contains wh
     | none => false))

/-- The grouped aggregation claim C2 describes, over its own filter. -/
def spec_aggregate (env : Env) (w : Wizard) (src dst : String) : List GroupResult :=
  read_group_by_product (env.move_lines.filter (spec_move_line_matches env w src dst))

theorem contract_filter_eq_matched (env : Env) (w : Wizard) (src dst : String) :
    env.move_lines.filter (contract_move_line_matches env w src dst)
      = matched_lines env w src dst := by
  unfold matched_lines
  apply List.filter_congr
  intro l _
  unfold contract_move_line_matches move_line_matches
  cases h1 : l.state == "done" <;>
    cases h2 : ((_get_products env w).map (·.id)).contains l.product_id <;>
    cases h3 : tsLe (combineMin w.date_begin) l.date <;>
    cases h4 : tsLe l.date (combineMax w.date_end) <;>
    cases h5 : l.location_usage == src <;>
    cases h6 : l.location_dest_usage == dst <;>
    simp [h1, h2, h3, h4, h5, h6]

/-- The concrete seller used in the witness environment. -/
def seller1 : Seller := { price := 5, currency_id := some 1, name := 10 }

/-- A small concrete store: vendor 10 supplies template 1 (variant product 1)
and variant product 2; product 7 is purchasable but has no vendor
association; product 1 was received once (10 units) and delivered twice
(15 + 15 units); product 7 was received once (10 units); product 2 has no
movements. -/
def env0 : Env :=
  { commercial_partner_id := fun p => p,
    supplierinfos := [⟨10, 1, none⟩, ⟨10, 2, some 2⟩],
    templates := [⟨1, true, true⟩, ⟨2, true, true⟩, ⟨7, true, true⟩],
    products := [⟨1, 1, true, true, 1⟩, ⟨2, 2, true, true, 1⟩, ⟨7, 7, true, true, 1⟩],
    move_lines :=
      [⟨1, ⟨1, 0⟩, "supplier", "internal", "done", 10, none⟩,
       ⟨1, ⟨2, 0⟩, "internal", "customer", "done", 15, none⟩,
       ⟨1, ⟨2, 5⟩, "internal", "customer", "done", 15, none⟩,
       ⟨7, ⟨1, 0⟩, "supplier", "internal", "done", 10, none⟩],
    select_seller := fun p _ => if p == 1 then some seller1 else none,
    qty_available := fun _ _ => 0,
    virtual_available := fun _ _ => 0 }

/-- A concrete request: vendor 10, window days 1..3, defaults otherwise. -/
def w0 : Wizard :=
  { partner_id := some 10, date_begin := 1, date_end := 3,
    show_all_partner_products := true, show_all_products := false,
    product_category_ids := [], warehouse_ids := [] }

/-- A request in show-all-purchasable mode (vendor cleared, as the onchange
leaves it). -/
def w2 : Wizard :=
  { partner_id := none, date_begin := 1, date_end := 3,
    show_all_partner_products := false, show_all_products := true,
    product_category_ids := [], warehouse_ids := [] }

/-- A request whose end date lies before its begin date; nothing in the
wizard prevents this state. -/
def w_invalid : Wizard :=
  { partner_id := none, date_begin := 1, date_end := 0,
    show_all_partner_products := true, show_all_products := false,
    product_category_ids := [], warehouse_ids := [] }

/-- A request with both show-all flags set, before the onchange runs. -/
def w_show_all : Wizard :=
  { partner_id := some 10, date_begin := 1, date_end := 1,
    show_all_partner_products := true, show_all_products := true,
    product_category_ids := [], warehouse_ids := [] }

/-! ### Claims -/

/-- C1 (counterexample): the claim says every request has
`total_days = (date_end - date_begin).days + 1 ≥ 1` and that the division by
`total_days` can never be by zero.  The wizard nowhere validates the range,
and for the constructible request `w_invalid` (end one day before begin) the
total day count is `0`, so the divisor of `units_avg_delivered` is zero. -/
theorem C1_counterexample :
    _get_total_days w_invalid = 0 ∧ ¬ (1 ≤ _get_total_days w_invalid) ∧
      ((_get_total_days w_invalid : Int) : Rat) = 0 := by
  refine ⟨rfl, by decide, ?_⟩
  have h0 : _get_total_days w_invalid = 0 := rfl
  rw [h0, Int.cast_zero]

/-- C1 (amended): for every request satisfying the data-model invariant
`date_begin ≤ date_end`, `total_days = (date_end - date_begin).days + 1` is at
least 1, the divisor is nonzero, and the row field `units_avg_delivered`
equals `qty_delivered / total_days`. -/
theorem C1_total_days (env : Env) (w : Wizard) (vals : Entry)
    (h : w.date_begin ≤ w.date_end) :
    1 ≤ _get_total_days w ∧ ((_get_total_days w : Int) : Rat) ≠ 0 ∧
      (_prepare_wizard_line env w vals).units_avg_delivered
        = (vals.qty_delivered.getD 0) / ((_get_total_days w : Int) : Rat) := by
  have h1 : 1 ≤ _get_total_days w := by
    unfold _get_total_days
    omega
  refine ⟨h1, ?_, rfl⟩
  have h2 : (_get_total_days w : Int) ≠ 0 := by omega
  exact Int.cast_ne_zero.mpr h2

/-- C1 witness: the amended theorem applied to the concrete request `w0`
(window days 1..3, hence 3 total days). -/
theorem C1_total_days_witness :
    w0.date_begin ≤ w0.date_end ∧
      (1 ≤ _get_total_days w0 ∧ ((_get_total_days w0 : Int) : Rat) ≠ 0 ∧
        (_prepare_wizard_line env0 w0 { product_id := 1 }).units_avg_delivered
          = ((({ product_id := 1 } : Entry).qty_delivered).getD 0)
              / ((_get_total_days w0 : Int) : Rat)) :=
  ⟨by decide, C1_total_days env0 w0 { product_id := 1 } (by decide)⟩

/-- C5: enabling show-all-purchasable-products forces
show-all-vendor-products off and clears the vendor, so after the onchange the
two modes are never both enabled. -/
theorem C5_mutual_exclusion (w : Wizard) :
    (w.show_all_products = true →
      (onchange_show_all_products w).show_all_partner_products = false ∧
      (onchange_show_all_products w).partner_id = none) ∧
    ¬ ((onchange_show_all_products w).show_all_products = true ∧
       (onchange_show_all_products w).show_all_partner_products = true) := by
  unfold onchange_show_all_products
  by_cases h : w.show_all_products = true
  · simp [h]
  · have hf : w.show_all_products = false := by
      cases hv : w.show_all_products
      · rfl
      · exact absurd hv h
    simp [hf]

/-- C5 witness: the onchange applied to a request with both flags set. -/
theorem C5_mutual_exclusion_witness :
    (onchange_show_all_products w_show_all).show_all_partner_products = false ∧
    (onchange_show_all_products w_show_all).partner_id = none :=
  (C5_mutual_exclusion w_show_all).1 rfl

/-- C7: when the seller resolver returns no seller for a product, the created
row carries a zero price and absent currency and vendor, and the row is still
produced (no error path exists). -/
theorem C7_missing_seller (env : Env) (w : Wizard) (vals : Entry)
    (h : env.select_seller vals.product_id w.partner_id = none) :
    (_prepare_wizard_line env w vals).price_unit = 0 ∧
    (_prepare_wizard_line env w vals).currency_id = none ∧
    (_prepare_wizard_line env w vals).partner_id = none := by
  unfold _prepare_wizard_line
  simp [h]

/-- C7 witness: product 2 has no seller in `env0`. -/
theorem C7_missing_seller_witness :
    env0.select_seller (({ product_id := 2 } : Entry).product_id) w0.partner_id = none ∧
    ((_prepare_wizard_line env0 w0 { product_id := 2 }).price_unit = 0 ∧
     (_prepare_wizard_line env0 w0 { product_id := 2 }).currency_id = none ∧
     (_prepare_wizard_line env0 w0 { product_id := 2 }).partner_id = none) :=
  ⟨rfl, C7_missing_seller env0 w0 { product_id := 2 } rfl⟩

theorem matched_ri_env0_w0 : matched_lines env0 w0 "supplier" "internal"
    = [⟨1, ⟨1, 0⟩, "supplier", "internal", "done", 10, none⟩] := by decide

theorem getEntry_find_env0_one :
    getEntry (_find_move_line env0 w0 "supplier" "internal") 1
      = some { id := some 1, product_id := 1, product_id_count := some 1,
               qty_done := some 10 } := by
  rw [getEntry_find_move_line, matched_ri_env0_w0]
  rw [if_pos (by decide)]
  unfold query_entry
  norm_num

/-- C2 (counterexample): the claim says the aggregation query's candidate set
includes, when show-all-purchasable-products is set, every purchasable
product.  In `env0` with request `w2` (show-all mode), product 7 is
purchasable and has one completed received movement of 10 units inside the
window, so the claimed aggregate contains the group (7, count 1, qty 10) —
but the code's aggregator returns a bare entry for product 7 with no count
and no quantity, because the query filters on the vendor-derived product set
only and the show-all products are appended after the query. -/
theorem C2_counterexample :
    w2.show_all_products = true ∧
    (spec_aggregate env0 w2 "supplier" "internal").contains
        { product_id := 7, product_id_count := 1, qty_done := 10 } = true ∧
    getEntry (_find_move_line env0 w2 "supplier" "internal") 7
      = some { product_id := 7 } ∧
    ({ product_id := 7 } : Entry).product_id_count = none ∧
    ({ product_id := 7 } : Entry).qty_done = none := by
  refine ⟨rfl, ?_, by decide, rfl, rfl⟩
  have hf : env0.move_lines.filter (spec_move_line_matches env0 w2 "supplier" "internal")
      = [⟨1, ⟨1, 0⟩, "supplier", "internal", "done", 10, none⟩,
         ⟨7, ⟨1, 0⟩, "supplier", "internal", "done", 10, none⟩] := by decide
  have hagg : spec_aggregate env0 w2 "supplier" "internal"
      = [{ product_id := 1, product_id_count := 1, qty_done := 10 },
         { product_id := 7, product_id_count := 1, qty_done := 10 }] := by
    rw [spec_aggregate, hf]
    unfold read_group_by_product
    norm_num
  rw [hagg]
  decide

/-- C2 (amended): the aggregator queries completed movements whose product
is in the vendor-derived (category-filtered) candidate set — not including
the show-all expansion, which is appended after the query with empty
aggregates — whose timestamp lies in the inclusive window, whose location
kinds match the pair, and, when a warehouse filter is set, whose transfer
belongs to a selected warehouse; it groups by product, yielding per product
the group's record count and the sum of quantity-done. -/
theorem C2_move_aggregation (env : Env) (w : Wizard) (src dst : String) (k : Nat)
    (h : k ∈ (env.move_lines.filter
        (contract_move_line_matches env w src dst)).map (·.product_id)) :
    getEntry (_find_move_line env w src dst) k
      = some { id := some k, product_id := k,
               product_id_count := some ((env.move_lines.filter
                   (contract_move_line_matches env w src dst)).filter
                     (fun l => l.product_id == k)).length,
               qty_done := some (((env.move_lines.filter
                   (contract_move_line_matches env w src dst)).filter
                     (fun l => l.product_id == k)).map (·.qty_done)).sum } := by
  rw [contract_filter_eq_matched] at h ⊢
  rw [getEntry_find_move_line, if_pos h]
  rfl

/-- C2 witness: product 1 in `env0` with request `w0` has one received
movement of 10 units, and the aggregator returns exactly that group. -/
theorem C2_move_aggregation_witness :
    (1 ∈ (env0.move_lines.filter
        (contract_move_line_matches env0 w0 "supplier" "internal")).map (·.product_id)) ∧
    getEntry (_find_move_line env0 w0 "supplier" "internal") 1
      = some { id := some 1, product_id := 1,
               product_id_count := some 1, qty_done := some 10 } :=
  ⟨by decide, by
    rw [C2_move_aggregation env0 w0 "supplier" "internal" 1 (by decide)]
    have hf : (env0.move_lines.filter
          (contract_move_line_matches env0 w0 "supplier" "internal")).filter
            (fun l => l.product_id == 1)
        = [⟨1, ⟨1, 0⟩, "supplier", "internal", "done", 10, none⟩] := by decide
    rw [hf]
    norm_num⟩

/-- C4: every invocation replaces the report wholesale — the result is
independent of the previously persisted rows — and the resulting row list
has exactly the merged dictionary's (duplicate-free) products, one row
each. -/
theorem C4_replace_rows (env : Env) (w : Wizard) (prior prior2 : List WizardLine) :
    action_show_results env w prior = action_show_results env w prior2 ∧
    (action_show_results env w prior).map (·.product_id) = keys (merged_dict env w) ∧
    (keys (merged_dict env w)).Nodup ∧
    (action_show_results env w prior).length = (keys (merged_dict env w)).length := by
  refine ⟨rfl, action_pids env w prior, nodup_keys_merged env w, ?_⟩
  rw [← action_pids env w prior]
  exact (List.length_map _ _).symm

/-- C10: merging the delivered aggregate into the received dictionary only
sets the delivered fields: every entry already present keeps its
`qty_received`, `times_received` and all other fields unchanged. -/
theorem C10_merge_frame (env : Env) (w : Wizard) (k : Nat) (e : Entry)
    (h : getEntry ((_find_move_line env w "supplier" "internal").map
        (fun kv => (kv.1, set_received kv.2))) k = some e) :
    ∃ e2, getEntry (merged_dict env w) k = some e2 ∧
      e2.qty_received = e.qty_received ∧ e2.times_received = e.times_received ∧
      e2.id = e.id ∧ e2.product_id = e.product_id ∧
      e2.product_id_count = e.product_id_count ∧ e2.qty_done = e.qty_done := by
  rw [getEntry_mapSnd] at h
  cases hR : getEntry (_find_move_line env w "supplier" "internal") k with
  | none =>
    rw [hR] at h
    cases h
  | some er =>
    rw [hR] at h
    injection h with h'
    rw [getEntry_merged]
    cases hD : getEntry (_find_move_line env w "internal" "customer") k with
    | none =>
      refine ⟨set_received er, ?_, ?_⟩
      · rw [hR]
        rfl
      · rw [h']
        exact ⟨rfl, rfl, rfl, rfl, rfl, rfl⟩
    | some ed =>
      refine ⟨set_delivered ed (set_received er), ?_, ?_⟩
      · rw [hR]
        rfl
      · rw [h']
        exact ⟨rfl, rfl, rfl, rfl, rfl, rfl⟩

/-- The annotated received entry for product 1 in `env0`/`w0`. -/
def entry1recv : Entry :=
  { id := some 1, product_id := 1, product_id_count := some 1,
    qty_done := some 10, qty_received := some 10, times_received := some 1 }

/-- C10 witness: product 1's received entry in `env0`/`w0` keeps count 1 and
quantity 10 through the merge. -/
theorem C10_merge_frame_witness :
    getEntry ((_find_move_line env0 w0 "supplier" "internal").map
        (fun kv => (kv.1, set_received kv.2))) 1 = some entry1recv ∧
    ∃ e2, getEntry (merged_dict env0 w0) 1 = some e2 ∧
      e2.qty_received = entry1recv.qty_received ∧
      e2.times_received = entry1recv.times_received ∧
      e2.id = entry1recv.id ∧
      e2.product_id = entry1recv.product_id ∧
      e2.product_id_count = entry1recv.product_id_count ∧
      e2.qty_done = entry1recv.qty_done := by
  have h : getEntry ((_find_move_line env0 w0 "supplier" "internal").map
        (fun kv => (kv.1, set_received kv.2))) 1 = some entry1recv := by
    rw [getEntry_mapSnd, getEntry_find_env0_one]
    rfl
  exact ⟨h, C10_merge_frame env0 w0 1 entry1recv h⟩

/-- C8: with no vendor selected and show-all-purchasable-products disabled,
the candidate set is empty and the action produces an empty report without
any error path, whatever the show-all-vendor-products flag is. -/
theorem C8_no_vendor_empty_report (env : Env) (w : Wizard) (prior : List WizardLine)
    (h1 : w.partner_id = none) (h2 : w.show_all_products = false) :
    _get_products env w = [] ∧ action_show_results env w prior = [] := by
  have hsup : _get_supplier_products env w = [] := by
    simp only [_get_supplier_products, h1, Option.map_none']
    have hf : env.supplierinfos.filter (fun s => some s.name == none) = [] := by
      rw [List.filter_eq_nil_iff]
      intro s _
      simp
    rw [hf]
    simp
  have hprod : _get_products env w = [] := by
    unfold _get_products
    rw [hsup]
    by_cases hc : w.product_category_ids.isEmpty <;> simp [hc]
  refine ⟨hprod, ?_⟩
  have hmatched : ∀ src dst, matched_lines env w src dst = [] := by
    intro src dst
    unfold matched_lines
    rw [hprod, List.filter_eq_nil_iff]
    intro l _
    unfold move_line_matches
    simp
  have hexp : expansion_products env w = [] := by
    unfold expansion_products
    rw [h2, hprod]
    simp
  have hfind : ∀ src dst, _find_move_line env w src dst = [] := by
    intro src dst
    apply eq_nil_of_getEntry_none
    intro k
    rw [getEntry_find_move_line, hmatched, hexp]
    simp
  have hmerged : merged_dict env w = [] := by
    simp only [merged_dict]
    rw [hfind "supplier" "internal", hfind "internal" "customer"]
    rfl
  rw [action_eq_map, hmerged]
  rfl

/-- A request with no vendor, show-all-purchasable off and
show-all-vendor-products on. -/
def w_nov : Wizard :=
  { partner_id := none, date_begin := 1, date_end := 3,
    show_all_partner_products := true, show_all_products := false,
    product_category_ids := [], warehouse_ids := [] }

/-- C8 witness: the concrete store `env0` with no vendor selected yields an
empty report even though show-all-vendor-products is on. -/
theorem C8_no_vendor_empty_report_witness :
    w_nov.partner_id = none ∧ w_nov.show_all_products = false ∧
    w_nov.show_all_partner_products = true ∧
    (_get_products env0 w_nov = [] ∧ action_show_results env0 w_nov [] = []) :=
  ⟨rfl, rfl, rfl, C8_no_vendor_empty_report env0 w_nov [] rfl rfl⟩

/-- C9: the intermediate aggregates are sorted descending by
(group count, summed quantity); the persisted rows are read back ordered by
product id ascending; and the final report read is identical whether or not
the intermediate descending sort is performed. -/
theorem C9_sort_cosmetic (env : Env) (w : Wizard) (prior : List WizardLine)
    (gs : List GroupResult) :
    (sort_desc gs).Sorted groupKeyGe ∧
    (read_planning_lines (action_show_results env w prior)).Sorted lineOrder ∧
    read_planning_lines (action_show_results env w prior)
      = read_planning_lines (action_show_results_nosort env w prior) := by
  refine ⟨List.sorted_insertionSort groupKeyGe gs, List.sorted_insertionSort lineOrder _, ?_⟩
  have hperm : (merged_dict env w).Perm (merged_dict_nosort env w) :=
    perm_of_getEntry_eq _ _ (nodup_keys_merged env w) (nodup_keys_merged_nosort env w)
      (getEntry_merged_eq_nosort env w)
  have hrows : (action_show_results env w prior).Perm
      (action_show_results_nosort env w prior) := by
    rw [action_eq_map, action_nosort_eq_map]
    exact hperm.map _
  apply eq_of_perm_sorted_nodup
  · exact (List.perm_insertionSort lineOrder _).trans
      (hrows.trans (List.perm_insertionSort lineOrder _).symm)
  · exact List.sorted_insertionSort lineOrder _
  · exact List.sorted_insertionSort lineOrder _
  · have h1 : ((read_planning_lines (action_show_results env w prior)).map
        (·.product_id)).Perm ((action_show_results env w prior).map (·.product_id)) :=
      (List.perm_insertionSort lineOrder _).map _
    apply h1.nodup_iff.mpr
    rw [action_pids]
    exact nodup_keys_merged env w

/-- C3: every product present in the received aggregate, the delivered
aggregate, or the show-all expansion gets exactly one report row (the merge
is keyed by product id, so duplicates are impossible), and a side absent
from one aggregate yields zero counts and quantities on that side. -/
theorem C3_one_row_per_product (env : Env) (w : Wizard) (prior : List WizardLine)
    (k : Nat)
    (h : k ∈ keys (_find_move_line env w "supplier" "internal") ∨
         k ∈ keys (_find_move_line env w "internal" "customer") ∨
         ((w.show_all_partner_products || w.show_all_products) = true ∧
           (expansion_products env w).any (fun q => q.id == k) = true)) :
    ((action_show_results env w prior).map (·.product_id)).count k = 1 ∧
    ∀ row ∈ action_show_results env w prior, row.product_id = k →
      (k ∉ keys (_find_move_line env w "internal" "customer") →
        row.times_delivered = 0 ∧ row.units_delivered = 0) ∧
      (k ∉ keys (_find_move_line env w "supplier" "internal") →
        row.times_received = 0 ∧ row.units_received = 0) := by
  have hk : k ∈ keys (_find_move_line env w "supplier" "internal") ∨
      k ∈ keys (_find_move_line env w "internal" "customer") := by
    rcases h with h | h | ⟨hf, ha⟩
    · exact Or.inl h
    · exact Or.inr h
    · refine Or.inl ((mem_keys_iff_isSome _ _).mpr ?_)
      rw [getEntry_find_move_line]
      by_cases hm : k ∈ (matched_lines env w "supplier" "internal").map (·.product_id)
      · rw [if_pos hm]
        rfl
      · rw [if_neg hm, if_pos (by rw [hf, ha]; rfl)]
        rfl
  constructor
  · rw [action_pids]
    exact List.count_eq_one_of_mem (nodup_keys_merged env w)
      ((mem_keys_merged env w k).mpr hk)
  · intro row hrow hpid
    rw [action_eq_map] at hrow
    rcases List.mem_map.mp hrow with ⟨kv, hkv, hprep⟩
    have hget : getEntry (merged_dict env w) kv.1 = some kv.2 :=
      (getEntry_eq_some_iff_mem _ (nodup_keys_merged env w) kv.1 kv.2).mpr hkv
    have hpid2 : kv.2.product_id = kv.1 := merged_entry_pid env w kv.1 kv.2 hget
    have hk1 : kv.1 = k := by
      rw [← hpid, ← hprep]
      exact hpid2.symm
    subst hk1
    constructor
    · intro hnd
      have hD : getEntry (_find_move_line env w "internal" "customer") kv.1 = none :=
        (getEntry_eq_none_iff _ _).mpr hnd
      have hR : ∃ er, getEntry (_find_move_line env w "supplier" "internal") kv.1
          = some er := by
        rcases hk with hmem | hmem
        · rcases Option.isSome_iff_exists.mp
            ((mem_keys_iff_isSome _ _).mp hmem) with ⟨er, her⟩
          exact ⟨er, her⟩
        · exact absurd hmem hnd
      rcases hR with ⟨er, her⟩
      have hmerge : kv.2 = set_received er := by
        have := hget
        rw [getEntry_merged, hD, her] at this
        injection this with h'
        exact h'.symm
      have hfields := find_entry_fields env w "supplier" "internal" kv.1 er her
      rw [← hprep, hmerge]
      unfold _prepare_wizard_line set_received
      simp [hfields.2.2.1, hfields.2.2.2]
    · intro hnr
      have hR : getEntry (_find_move_line env w "supplier" "internal") kv.1 = none :=
        (getEntry_eq_none_iff _ _).mpr hnr
      have hD : ∃ ed, getEntry (_find_move_line env w "internal" "customer") kv.1
          = some ed := by
        rcases hk with hmem | hmem
        · exact absurd hmem hnr
        · rcases Option.isSome_iff_exists.mp
            ((mem_keys_iff_isSome _ _).mp hmem) with ⟨ed, hed⟩
          exact ⟨ed, hed⟩
      rcases hD with ⟨ed, hed⟩
      have hmerge : kv.2 = set_delivered ed ed := by
        have := hget
        rw [getEntry_merged, hed, hR] at this
        injection this with h'
        exact h'.symm
      have hfields := find_entry_fields env w "internal" "customer" kv.1 ed hed
      rw [← hprep, hmerge]
      unfold _prepare_wizard_line set_delivered
      simp [hfields.1, hfields.2.1]

/-- C3 witness: product 1 is in the received aggregate of `env0`/`w0` and
gets exactly one row with zero-defaulted absent sides. -/
theorem C3_one_row_per_product_witness :
    (1 ∈ keys (_find_move_line env0 w0 "supplier" "internal") ∨
      1 ∈ keys (_find_move_line env0 w0 "internal" "customer") ∨
      ((w0.show_all_partner_products || w0.show_all_products) = true ∧
        (expansion_products env0 w0).any (fun q => q.id == 1) = true)) ∧
    (((action_show_results env0 w0 []).map (·.product_id)).count 1 = 1 ∧
      ∀ row ∈ action_show_results env0 w0 [], row.product_id = 1 →
        (1 ∉ keys (_find_move_line env0 w0 "internal" "customer") →
          row.times_delivered = 0 ∧ row.units_delivered = 0) ∧
        (1 ∉ keys (_find_move_line env0 w0 "supplier" "internal") →
          row.times_received = 0 ∧ row.units_received = 0)) := by
  have h1 : 1 ∈ keys (_find_move_line env0 w0 "supplier" "internal") := by
    refine (mem_keys_iff_isSome _ _).mpr ?_
    rw [getEntry_find_env0_one]
    rfl
  exact ⟨Or.inl h1, C3_one_row_per_product env0 w0 [] 1 (Or.inl h1)⟩

/-- C6: with show-all-vendor-products on and show-all-purchasable-products
off, every candidate vendor product (active, purchasable, category-filtered —
the set `_get_products` computes) gets a report row, and a product with no
movement dated inside the window gets zero counts and quantities. -/
theorem C6_all_vendor_products_appear (env : Env) (w : Wizard)
    (prior : List WizardLine) (p : Product)
    (h1 : w.show_all_partner_products = true) (h2 : w.show_all_products = false)
    (hp : p ∈ _get_products env w) :
    ∃ row ∈ action_show_results env w prior, row.product_id = p.id ∧
      (env.move_lines.filter (fun l => l.product_id == p.id &&
          tsLe (combineMin w.date_begin) l.date &&
          tsLe l.date (combineMax w.date_end)) = [] →
        row.times_received = 0 ∧ row.times_delivered = 0 ∧
        row.units_received = 0 ∧ row.units_delivered = 0) := by
  have hexp : p ∈ expansion_products env w := by
    unfold expansion_products
    rw [h2]
    simpa using hp
  have hany : (expansion_products env w).any (fun q => q.id == p.id) = true :=
    List.any_eq_true.mpr ⟨p, hexp, by simp⟩
  have hflag : (w.show_all_partner_products || w.show_all_products) = true := by
    rw [h1]
    rfl
  have hR : ∃ er, getEntry (_find_move_line env w "supplier" "internal") p.id
      = some er := by
    rw [getEntry_find_move_line]
    by_cases hm : p.id ∈ (matched_lines env w "supplier" "internal").map (·.product_id)
    · exact ⟨_, by rw [if_pos hm]⟩
    · exact ⟨_, by rw [if_neg hm, if_pos (by rw [hflag, hany]; rfl)]⟩
  have hD : ∃ ed, getEntry (_find_move_line env w "internal" "customer") p.id
      = some ed := by
    rw [getEntry_find_move_line]
    by_cases hm : p.id ∈ (matched_lines env w "internal" "customer").map (·.product_id)
    · exact ⟨_, by rw [if_pos hm]⟩
    · exact ⟨_, by rw [if_neg hm, if_pos (by rw [hflag, hany]; rfl)]⟩
  rcases hR with ⟨er, her⟩
  rcases hD with ⟨ed, hed⟩
  have hmerged : getEntry (merged_dict env w) p.id
      = some (set_delivered ed (set_received er)) := by
    rw [getEntry_merged, hed, her]
    rfl
  have hmem : (p.id, set_delivered ed (set_received er)) ∈ merged_dict env w :=
    (getEntry_eq_some_iff_mem _ (nodup_keys_merged env w) _ _).mp hmerged
  refine ⟨_prepare_wizard_line env w (set_delivered ed (set_received er)), ?_, ?_, ?_⟩
  · rw [action_eq_map]
    exact List.mem_map.mpr ⟨_, hmem, rfl⟩
  · exact merged_entry_pid env w p.id _ hmerged
  · intro hwin
    have hnm : ∀ src dst, p.id ∉ (matched_lines env w src dst).map (·.product_id) := by
      intro src dst hmm
      rcases List.mem_map.mp hmm with ⟨l, hl, hpl⟩
      rcases List.mem_filter.mp hl with ⟨hlm, hlmatch⟩
      unfold move_line_matches at hlmatch
      simp only [Bool.and_eq_true] at hlmatch
      have hld := hlmatch.1.1.1.1.1.2
      have hld2 := hlmatch.1.1.1.1.2
      have hlin : l ∈ env.move_lines.filter (fun l => l.product_id == p.id &&
          tsLe (combineMin w.date_begin) l.date &&
          tsLe l.date (combineMax w.date_end)) := by
        refine List.mem_filter.mpr ⟨hlm, ?_⟩
        simp [hpl, hld, hld2]
      rw [hwin] at hlin
      exact absurd hlin (List.not_mem_nil l)
    have hR0 : getEntry (_find_move_line env w "supplier" "internal") p.id
        = some { product_id := p.id } := by
      rw [getEntry_find_move_line, if_neg (hnm "supplier" "internal"),
        if_pos (by rw [hflag, hany]; rfl)]
    have hD0 : getEntry (_find_move_line env w "internal" "customer") p.id
        = some { product_id := p.id } := by
      rw [getEntry_find_move_line, if_neg (hnm "internal" "customer"),
        if_pos (by rw [hflag, hany]; rfl)]
    have her0 : er = { product_id := p.id } := by
      rw [her] at hR0
      injection hR0
    have hed0 : ed = { product_id := p.id } := by
      rw [hed] at hD0
      injection hD0
    rw [her0, hed0]
    exact ⟨rfl, rfl, rfl, rfl⟩

/-- C6 witness: vendor product 2 in `env0`/`w0` has no movements and still
gets a zero-filled row. -/
theorem C6_all_vendor_products_appear_witness :
    w0.show_all_partner_products = true ∧ w0.show_all_products = false ∧
    (⟨2, 2, true, true, 1⟩ : Product) ∈ _get_products env0 w0 ∧
    ∃ row ∈ action_show_results env0 w0 [],
      row.product_id = (⟨2, 2, true, true, 1⟩ : Product).id ∧
      (env0.move_lines.filter (fun l =>
          l.product_id == (⟨2, 2, true, true, 1⟩ : Product).id &&
          tsLe (combineMin w0.date_begin) l.date &&
          tsLe l.date (combineMax w0.date_end)) = [] →
        row.times_received = 0 ∧ row.times_delivered = 0 ∧
        row.units_received = 0 ∧ row.units_delivered = 0) :=
  ⟨rfl, rfl, by decide,
    C6_all_vendor_products_appear env0 w0 [] ⟨2, 2, true, true, 1⟩ rfl rfl (by decide)⟩

end PurchasePlanning
